import Mathlib

/-!
# Verification of the juju leadership/lease manager specification

This development embeds, in Lean 4, the parts of the repository relevant to
the frozen claims:

* the leadership test fixture (`src/unnamed/part_000`): the default virtual
  clock start instant parsed from an RFC3339Nano string, and the boundary
  probe durations `almostOneSecond` / `almostSeconds`;
* the dummy provider's per-method `checkBroken` guard
  (`src/provider/dummy/environs.go`);
* the leadership manager itself.  Its source is not part of the available
  fragment (only its test fixture is), so the manager and the lease-store
  client contract are modelled from the specification (sections 4.2, 4.3,
  5 and 7 of the design document) and the claims are settled against that
  model.

Time instants and durations are modelled as integers (nanoseconds), matching
Go's `time.Time`/`time.Duration` resolution; `time.Duration` arithmetic that
can overflow is wrapped to 64-bit two's complement explicitly.
-/

namespace Leadership

/-! ## Lease data model (modelled from the spec, section 3) -/

/-- Modelled from the spec: `LeaseInfo` is `{Holder: HolderID, Expiry: Instant}`,
one active lease as known to the store or the cache.  The manager source is
missing from the fragment, so this follows section 3 of the design document.
Instants are integers (nanoseconds). -/
structure LeaseInfo where
  holder : String
  expiry : Int
deriving Repr, DecidableEq

/-- Modelled from the spec: the store/cache mapping from `LeaseName` to
`LeaseInfo`, represented as an association list. -/
abbrev Leases := List (String × LeaseInfo)

/-- Look a lease up by name in the mapping (first binding wins). -/
def getLease : Leases → String → Option LeaseInfo
  | [], _ => none
  | (n, info) :: rest, name => if n = name then some info else getLease rest name

/-- Remove every binding for `name` from the mapping. -/
def delLease : Leases → String → Leases
  | [], _ => []
  | (n, info) :: rest, name =>
      if n = name then delLease rest name else (n, info) :: delLease rest name

/-- Overwrite the binding for `name` with `info`. -/
def setLease (s : Leases) (name : String) (info : LeaseInfo) : Leases :=
  (name, info) :: delLease s name

/-- Modelled from the spec: the classified errors of the lease-store client
contract (section 4.2): `LeaseHeld`, `LeaseNotOwned`, `LeaseNotExpired`. -/
inductive ClientError
  | leaseHeld
  | leaseNotOwned
  | leaseNotExpired
deriving Repr, DecidableEq

/-- Modelled from the spec: the errors surfaced by the manager's public
operations (sections 4.3 and 7): `LeaseHeldByOther`, `NotLeader`,
`ManagerStopped`, plus rejection of a non-positive duration. -/
inductive ManagerError
  | leaseHeldByOther
  | notLeader
  | invalidDuration
  | managerStopped
deriving Repr, DecidableEq

/-! ## Lease store client contract (modelled from the spec, section 4.2) -/

/-- Modelled from the spec: `ClaimLease(name, holder, duration)` succeeds only
if the lease is free or already held by `holder`; on success it sets an expiry
of `now+duration`; it fails with `LeaseHeld` when another holder owns the
entry.  The client source is missing from the fragment. -/
def ClaimLease (s : Leases) (now : Int) (name holder : String) (d : Int) :
    Except ClientError Leases :=
  match getLease s name with
  | none => .ok (setLease s name ⟨holder, now + d⟩)
  | some info =>
      if info.holder = holder then .ok (setLease s name ⟨holder, now + d⟩)
      else .error .leaseHeld

/-- Modelled from the spec: `ExtendLease(name, holder, duration)` succeeds only
if `holder` currently owns the lease and extends the expiry to `now+duration`,
never shortening it if a concurrent extension produced a later value; it fails
with `LeaseNotOwned` otherwise.  The client source is missing from the
fragment. -/
def ExtendLease (s : Leases) (now : Int) (name holder : String) (d : Int) :
    Except ClientError Leases :=
  match getLease s name with
  | none => .error .leaseNotOwned
  | some info =>
      if info.holder = holder then
        .ok (setLease s name ⟨holder, max info.expiry (now + d)⟩)
      else .error .leaseNotOwned

/-- Modelled from the spec: `ExpireLease(name)` succeeds only if the current
entry's expiry is at or before `now`, removing the entry; it fails with
`LeaseNotExpired` when called early or when there is no entry.  The client
source is missing from the fragment. -/
def ExpireLease (s : Leases) (now : Int) (name : String) :
    Except ClientError Leases :=
  match getLease s name with
  | none => .error .leaseNotExpired
  | some info =>
      if info.expiry ≤ now then .ok (delLease s name) else .error .leaseNotExpired

/-! ## Manager operations (modelled from the spec, section 4.3) -/

/-- Modelled from the spec: the `Token` handed back by a successful
`LeadershipCheck`, `{LeaseName, Holder, validAsOf: Instant}`, immutable once
issued.  The manager source is missing from the fragment. -/
structure Token where
  name : String
  holder : String
  validAsOf : Int
deriving Repr, DecidableEq

/-- Modelled from the spec: `ClaimLeadership(name, holder, duration)` claims or
renews through the control loop.  `duration` must be positive.  A fresh name is
claimed through `ClaimLease`; a live lease held by the same holder is renewed
through `ExtendLease`; a live lease held by another holder fails with
`LeaseHeldByOther`; a logically expired entry is handled by the tie-break
policy of section 4.3: the loop first runs the expiry-then-claim sequence
rather than trusting the stale entry.  The manager source is missing from the
fragment. -/
def claimLeadership (s : Leases) (now : Int) (name holder : String) (d : Int) :
    Except ManagerError Leases :=
  if d ≤ 0 then .error .invalidDuration
  else
    match getLease s name with
    | none =>
        match ClaimLease s now name holder d with
        | .ok s' => .ok s'
        | .error _ => .error .leaseHeldByOther
    | some info =>
        if now < info.expiry then
          if info.holder = holder then
            match ExtendLease s now name holder d with
            | .ok s' => .ok s'
            | .error _ => .error .leaseHeldByOther
          else .error .leaseHeldByOther
        else
          match ExpireLease s now name with
          | .ok s' =>
              match ClaimLease s' now name holder d with
              | .ok s'' => .ok s''
              | .error _ => .error .leaseHeldByOther
          | .error _ => .error .leaseHeldByOther

/-- Modelled from the spec: `LeadershipCheck(name, holder)` returns a `Token`
if the cache currently shows `holder` as the owner and not expired, and fails
with `NotLeader` otherwise; it never contacts the client.  The manager source
is missing from the fragment. -/
def leadershipCheck (s : Leases) (now : Int) (name holder : String) :
    Except ManagerError Token :=
  match getLease s name with
  | none => .error .notLeader
  | some info =>
      if info.holder = holder ∧ now < info.expiry then .ok ⟨name, holder, now⟩
      else .error .notLeader

/-! ## Waiters and expiry processing (modelled from the spec, sections 4.3, 5) -/

/-- Modelled from the spec: the manager state owned by the control loop — the
lease cache plus `PendingWaiters`, the registered blocked callers (waiter ids)
per lease name.  The manager source is missing from the fragment. -/
structure MState where
  leases : Leases
  pending : List (String × Nat)
deriving Repr, DecidableEq

/-- The waiter ids currently registered for `name`. -/
def waitersFor (pending : List (String × Nat)) (name : String) : List Nat :=
  (pending.filter (fun q => q.1 == name)).map Prod.snd

/-- Modelled from the spec: `BlockUntilLeadershipReleased(name)` registers the
caller as a waiter for `name` and suspends until the loop observes that `name`
has no current holder; when the lease is already free the caller returns at
once.  Returns the new state together with the waiter ids woken immediately.
The manager source is missing from the fragment. -/
def blockUntilReleased (m : MState) (name : String) (wid : Nat) :
    MState × List Nat :=
  match getLease m.leases name with
  | none => (m, [wid])
  | some _ => ({ m with pending := (name, wid) :: m.pending }, [])

/-- Modelled from the spec: the control loop's reaction to an expiry timer
firing for `name` — it calls `ExpireLease`, removes the entry from the cache on
success and wakes every pending waiter registered for that name, removing them
so each is signaled exactly once.  Returns the new state and the woken waiter
ids.  The manager source is missing from the fragment. -/
def expireStep (m : MState) (now : Int) (name : String) :
    Except ClientError (MState × List Nat) :=
  match ExpireLease m.leases now name with
  | .ok s' =>
      .ok ({ leases := s',
             pending := m.pending.filter (fun q => !(q.1 == name)) },
           waitersFor m.pending name)
  | .error e => .error e

/-! ## Manager lifecycle (modelled from the spec, sections 4.3, 5, 7) -/

/-- Modelled from the spec: the manager's lifecycle state — whether shutdown
has been requested, and the invariant violation recorded by the loop, if any.
The manager source is missing from the fragment. -/
structure ManagerLife where
  killed : Bool
  violation : Option String
deriving Repr, DecidableEq

/-- Modelled from the spec: `Kill()` requests orderly shutdown and is
idempotent. -/
def kill (m : ManagerLife) : ManagerLife := { m with killed := true }

/-- Modelled from the spec: `Wait()` blocks until the loop has stopped and
returns the loop's terminal error — `nil` for a clean shutdown and a
descriptive error if an invariant violation was detected. -/
def wait (m : ManagerLife) : Option String :=
  m.violation.map (fun e => "leadership manager: " ++ e)

/-- Modelled from the spec: the injected Clock collaborator, reduced to its
start instant (its scheduling behavior is not needed by the claims). -/
structure LClock where
  start : Int
deriving Repr, DecidableEq

/-- Modelled from the spec: the injected lease-store Client collaborator,
reduced to its initial lease snapshot. -/
structure LClient where
  leases : Leases
deriving Repr, DecidableEq

/-- Modelled from the spec: a constructed manager holding its two
collaborators. -/
structure Manager where
  clock : LClock
  client : LClient
deriving Repr, DecidableEq

/-- Modelled from the spec: `NewManager(config{Clock, Client})` fails if either
collaborator is absent/invalid (absence modelled as `none`), and otherwise
returns the manager built from the two collaborators.  The manager source is
missing from the fragment. -/
def NewManager (clock : Option LClock) (client : Option LClient) :
    Except String Manager :=
  match clock, client with
  | none, _ => .error "nil Clock not valid"
  | some _, none => .error "nil Client not valid"
  | some ck, some cl => .ok ⟨ck, cl⟩

end Leadership

namespace Fixture

/-! ## The leadership test fixture (`src/unnamed/part_000`) -/

/-- 64-bit two's-complement wrap of an integer, embedding Go's `int64`
(and hence `time.Duration`) arithmetic. -/
def int64wrap (x : Int) : Int :=
  (x + 9223372036854775808) % 18446744073709551616 - 9223372036854775808

/-- Go's `time.Nanosecond` as an integer count of nanoseconds. -/
def nanosecondDur : Int := 1

/-- Go's `time.Second` as an integer count of nanoseconds. -/
def secondDur : Int := 1000000000

/-- Embeds `almostOneSecond = time.Second - time.Nanosecond` from the
fixture. -/
def almostOneSecond : Int := secondDur - nanosecondDur

/-- Embeds `almostSeconds` from the fixture: panics (modelled as `none`) when
`seconds < 1`, and otherwise returns
`time.Second * time.Duration(seconds) - time.Nanosecond`, with both operations
in wrapping `int64` arithmetic as in Go. -/
def almostSeconds (seconds : Int) : Option Int :=
  if seconds < 1 then none
  else some (int64wrap (int64wrap (secondDur * seconds) - nanosecondDur))

end Fixture

namespace Clock3339

/-! ## The default virtual-clock start instant (`src/unnamed/part_000`, `init`)

The fixture obtains `defaultClockStart` by parsing
`"2073-03-03T01:00:00.000000005-08:40"` with Go's `time.Parse` at layout
`time.RFC3339Nano`.  The parser below embeds `time.Parse` restricted to the
RFC3339Nano grammar (full date, `T`, time, an optional fraction of at most
nine digits, and a `Z` or `±hh:mm` zone). -/

/-- A parsed RFC3339Nano instant: calendar fields, the nanosecond fraction and
the zone offset east of UTC in seconds. -/
structure GoTime where
  year : Int
  month : Int
  day : Int
  hour : Int
  minute : Int
  sec : Int
  nsec : Int
  offsetSeconds : Int
deriving Repr, DecidableEq

/-- Read exactly `n` decimal digits, most significant first, returning the
value and the remaining characters. -/
def readN : Nat → Nat → List Char → Option (Nat × List Char)
  | 0, acc, cs => some (acc, cs)
  | n + 1, acc, c :: cs =>
      if c.isDigit then readN n (acc * 10 + (c.toNat - 48)) cs else none
  | _ + 1, _, [] => none

/-- Consume one expected character. -/
def expectChar (c : Char) : List Char → Option (List Char)
  | d :: cs => if d = c then some cs else none
  | [] => none

/-- Read between one and `bound` digits greedily, returning the digits' value,
how many were read and the rest. -/
def readUpTo : Nat → Nat → Nat → List Char → Nat × Nat × List Char
  | 0, acc, len, cs => (acc, len, cs)
  | bound + 1, acc, len, cs =>
      match cs with
      | c :: rest =>
          if c.isDigit then readUpTo bound (acc * 10 + (c.toNat - 48)) (len + 1) rest
          else (acc, len, cs)
      | [] => (acc, len, cs)

/-- Parse the optional fractional-second part: empty, or a dot followed by one
to nine digits, scaled to nanoseconds. -/
def readFraction : List Char → Option (Nat × List Char)
  | '.' :: cs =>
      match readUpTo 9 0 0 cs with
      | (_, 0, _) => none
      | (v, len, rest) => some (v * 10 ^ (9 - len), rest)
  | cs => some (0, cs)

/-- Parse the zone: `Z` for UTC or a signed `hh:mm` offset, returned in
seconds east of UTC. -/
def readZone : List Char → Option (Int × List Char)
  | 'Z' :: cs => some (0, cs)
  | '+' :: cs => do
      let (h, cs) ← readN 2 0 cs
      let cs ← expectChar ':' cs
      let (m, cs) ← readN 2 0 cs
      if h ≤ 23 ∧ m ≤ 59 then some ((h * 3600 + m * 60 : Nat), cs) else none
  | '-' :: cs => do
      let (h, cs) ← readN 2 0 cs
      let cs ← expectChar ':' cs
      let (m, cs) ← readN 2 0 cs
      if h ≤ 23 ∧ m ≤ 59 then some (-((h * 3600 + m * 60 : Nat) : Int), cs) else none
  | _ => none

/-- Embeds `time.Parse(time.RFC3339Nano, s)`: parse the full date, the time of
day, the optional nanosecond fraction and the zone, validating field ranges,
and demand that the whole string is consumed. -/
def parseRFC3339Nano (s : String) : Option GoTime := do
  let cs := s.toList
  let (y, cs) ← readN 4 0 cs
  let cs ← expectChar '-' cs
  let (mo, cs) ← readN 2 0 cs
  let cs ← expectChar '-' cs
  let (dy, cs) ← readN 2 0 cs
  let cs ← expectChar 'T' cs
  let (h, cs) ← readN 2 0 cs
  let cs ← expectChar ':' cs
  let (mi, cs) ← readN 2 0 cs
  let cs ← expectChar ':' cs
  let (sec, cs) ← readN 2 0 cs
  let (ns, cs) ← readFraction cs
  let (off, cs) ← readZone cs
  if cs = [] ∧ 1 ≤ mo ∧ mo ≤ 12 ∧ 1 ≤ dy ∧ dy ≤ 31 ∧ h ≤ 23 ∧ mi ≤ 59 ∧
      sec ≤ 59 then
    some ⟨y, mo, dy, h, mi, sec, ns, off⟩
  else none

/-- Days from the civil epoch 1970-01-01 to year/month/day, via the standard
era/year-of-era decomposition of the proleptic Gregorian calendar. -/
def daysFromCivil (y m d : Int) : Int :=
  let y' := if m ≤ 2 then y - 1 else y
  let era := (if 0 ≤ y' then y' else y' - 399) / 400
  let yoe := y' - era * 400
  let mp := (m + 9) % 12
  let doy := (153 * mp + 2) / 5 + d - 1
  let doe := yoe * 365 + yoe / 4 - yoe / 100 + doy
  era * 146097 + doe - 719468

/-- The Unix-seconds value of a parsed instant: seconds since
1970-01-01T00:00:00Z, the zone offset subtracted as in Go's `time.Time.Unix`. -/
def unixSeconds (t : GoTime) : Int :=
  daysFromCivil t.year t.month t.day * 86400 +
    t.hour * 3600 + t.minute * 60 + t.sec - t.offsetSeconds

/-- Embeds the fixture's `init`: `defaultClockStart` is the instant parsed from
the fixed odd start string. -/
def defaultClockStart : Option GoTime :=
  parseRFC3339Nano "2073-03-03T01:00:00.000000005-08:40"

end Clock3339

namespace Dummy

/-! ## The dummy provider's `checkBroken` (`src/provider/dummy/environs.go`) -/

/-- Whether a character is white space in the sense of Go's
`unicode.IsSpace` (the Unicode `White_Space` property). -/
def isSpace (c : Char) : Bool :=
  c == ' ' || c == '\t' || c == '\n' || c == '\x0b' || c == '\x0c' ||
  c == '\r' ||
  c.toNat == 0x85 || c.toNat == 0xA0 || c.toNat == 0x1680 ||
  (decide (0x2000 ≤ c.toNat) && decide (c.toNat ≤ 0x200A)) ||
  c.toNat == 0x2028 || c.toNat == 0x2029 || c.toNat == 0x202F ||
  c.toNat == 0x205F || c.toNat == 0x3000

/-- Accumulator pass behind `fields`: splits a character list around maximal
runs of white space. -/
def fieldsAux : List Char → List Char → List String
  | [], acc => if acc.isEmpty then [] else [String.mk acc.reverse]
  | c :: rest, acc =>
      if isSpace c then
        if acc.isEmpty then fieldsAux rest []
        else String.mk acc.reverse :: fieldsAux rest []
      else fieldsAux rest (c :: acc)

/-- Embeds Go's `strings.Fields`: the maximal non-white-space substrings of
`s`, in order. -/
def fields (s : String) : List String := fieldsAux s.toList []

/-- The loop body of `environ.checkBroken`: scan the fields for `method` and
produce the per-method error on the first match. -/
def checkBrokenList : List String → String → Option String
  | [], _ => none
  | m :: rest, method =>
      if m = method then some ("dummy." ++ method ++ " is broken")
      else checkBrokenList rest method

/-- Embeds `environ.checkBroken`: given the environ's `broken` configuration
attribute, the guarded operation `method` fails with `dummy.<method> is
broken` exactly when `method` occurs among the white-space-separated fields of
the attribute. -/
def checkBroken (broken method : String) : Option String :=
  checkBrokenList (fields broken) method

end Dummy

/-! ## Helper lemmas -/

theorem getLease_setLease_same (s : Leadership.Leases) (name : String)
    (info : Leadership.LeaseInfo) :
    Leadership.getLease (Leadership.setLease s name info) name = some info := by
  simp [Leadership.setLease, Leadership.getLease]

theorem getLease_delLease_same (s : Leadership.Leases) (name : String) :
    Leadership.getLease (Leadership.delLease s name) name = none := by
  induction s with
  | nil => rfl
  | cons p rest ih =>
      obtain ⟨n, info⟩ := p
      by_cases hn : n = name
      · simp [Leadership.delLease, hn, ih]
      · simp [Leadership.delLease, Leadership.getLease, hn, ih]

theorem filter_not_beq_erase {α : Type} (p : List (String × α)) (name : String) :
    (p.filter (fun q => !(q.1 == name))).filter (fun q => q.1 == name) = [] := by
  induction p with
  | nil => rfl
  | cons q rest ih =>
      by_cases hq : q.1 = name
      · simp [List.filter_cons, hq, ih]
      · simp [List.filter_cons, hq, ih]

theorem waitersFor_filter_erase (p : List (String × Nat)) (name : String) :
    Leadership.waitersFor (p.filter (fun q => !(q.1 == name))) name = [] := by
  simp [Leadership.waitersFor, filter_not_beq_erase]

theorem waitersFor_cons_same (p : List (String × Nat)) (name : String) (wid : Nat) :
    Leadership.waitersFor ((name, wid) :: p) name =
      wid :: Leadership.waitersFor p name := by
  simp [Leadership.waitersFor, List.filter_cons]

theorem int64wrap_sub_wrap (a b : Int) :
    Fixture.int64wrap (Fixture.int64wrap a - b) = Fixture.int64wrap (a - b) := by
  simp only [Fixture.int64wrap]
  omega

theorem checkBrokenList_some_iff (l : List String) (method : String) :
    Dummy.checkBrokenList l method = some ("dummy." ++ method ++ " is broken") ↔
      method ∈ l := by
  induction l with
  | nil => simp [Dummy.checkBrokenList]
  | cons m rest ih =>
      by_cases hm : m = method
      · subst hm; simp [Dummy.checkBrokenList]
      · simp [Dummy.checkBrokenList, hm, ih, Ne.symm hm]

theorem checkBrokenList_none_iff (l : List String) (method : String) :
    Dummy.checkBrokenList l method = none ↔ method ∉ l := by
  induction l with
  | nil => simp [Dummy.checkBrokenList]
  | cons m rest ih =>
      by_cases hm : m = method
      · subst hm; simp [Dummy.checkBrokenList]
      · simp [Dummy.checkBrokenList, hm, ih, Ne.symm hm]

/-! ## Claim theorems -/

/-- C7: the fixture's default virtual-clock start instant is obtained by
parsing `2073-03-03T01:00:00.000000005-08:40` with RFC3339Nano; the parsed
instant has a nanosecond component of exactly 5, a UTC offset of `-8h40m`
(`-(8*3600+40*60)` seconds), and a Unix-seconds value `3255759600`, strictly
greater than the int32 maximum `2147483647`. -/
theorem default_clock_start_parse :
    Clock3339.defaultClockStart =
      some ⟨2073, 3, 3, 1, 0, 0, 5, -(8 * 3600 + 40 * 60)⟩ ∧
    Clock3339.defaultClockStart.map Clock3339.unixSeconds = some 3255759600 ∧
    2147483647 < (3255759600 : Int) := by
  refine ⟨by decide, by decide, by decide⟩

/-- C8: the boundary-probe durations equal one unit minus one nanosecond:
`almostOneSecond` is `999999999` nanoseconds (one second minus one
nanosecond), and for every `n ≥ 1`, `almostSeconds n` is the `int64` duration
`n` seconds minus one nanosecond (wrapped exactly as Go's `time.Duration`
arithmetic wraps). -/
theorem almost_durations_boundary :
    Fixture.almostOneSecond = 999999999 ∧
    ∀ n : Int, 1 ≤ n →
      Fixture.almostSeconds n =
        some (Fixture.int64wrap (n * Fixture.secondDur - Fixture.nanosecondDur)) := by
  refine ⟨by decide, fun n hn => ?_⟩
  have hn' : ¬ n < 1 := not_lt.mpr hn
  simp only [Fixture.almostSeconds, hn', if_false, mul_comm, int64wrap_sub_wrap]

/-- C8 witness: the boundary values at the concrete input `n = 3`. -/
theorem almost_durations_boundary_witness :
    Fixture.almostOneSecond = 999999999 ∧
    Fixture.almostSeconds 3 =
      some (Fixture.int64wrap (3 * Fixture.secondDur - Fixture.nanosecondDur)) :=
  ⟨almost_durations_boundary.1, almost_durations_boundary.2 3 (by decide)⟩

/-- C9: `almostSeconds` has the precondition `seconds ≥ 1`: for `n < 1` it
panics (modelled as `none`), and for `n ≥ 1` the panic branch is unreachable
and a duration is always returned. -/
theorem almost_seconds_precondition (n : Int) :
    (n < 1 → Fixture.almostSeconds n = none) ∧
    (1 ≤ n → (Fixture.almostSeconds n).isSome = true) := by
  constructor
  · intro h
    simp [Fixture.almostSeconds, h]
  · intro h
    simp [Fixture.almostSeconds, not_lt.mpr h]

/-- C9 witness: the panic branch at `n = 0` and the normal branch at `n = 1`. -/
theorem almost_seconds_precondition_witness :
    ((0 : Int) < 1 ∧ Fixture.almostSeconds 0 = none) ∧
    ((1 : Int) ≤ 1 ∧ (Fixture.almostSeconds 1).isSome = true) :=
  ⟨⟨by decide, (almost_seconds_precondition 0).1 (by decide)⟩,
   ⟨by decide, (almost_seconds_precondition 1).2 (by decide)⟩⟩

/-- C10: a dummy-provider operation guarded by `checkBroken` fails exactly when
the method name occurs as a white-space-separated field of the environ's
`broken` attribute, and then with the per-method message
`dummy.<method> is broken`; with an empty `broken` attribute every guarded
operation passes the check. -/
theorem check_broken_per_method (broken method : String) :
    (Dummy.checkBroken broken method =
        some ("dummy." ++ method ++ " is broken") ↔
      method ∈ Dummy.fields broken) ∧
    (Dummy.checkBroken broken method = none ↔ method ∉ Dummy.fields broken) ∧
    Dummy.checkBroken "" method = none := by
  refine ⟨checkBrokenList_some_iff _ _, checkBrokenList_none_iff _ _, ?_⟩
  have : Dummy.fields "" = [] := rfl
  simp [Dummy.checkBroken, this, Dummy.checkBrokenList]

/-- C1: mutual exclusion of leadership — at one virtual instant, two
`LeadershipCheck` calls for the same name can only both succeed when they name
the same holder; conflicting holders never both pass. -/
theorem leadership_check_mutual_exclusion (s : Leadership.Leases) (now : Int)
    (name h1 h2 : String) (t1 t2 : Leadership.Token)
    (hc1 : Leadership.leadershipCheck s now name h1 = .ok t1)
    (hc2 : Leadership.leadershipCheck s now name h2 = .ok t2) :
    h1 = h2 := by
  unfold Leadership.leadershipCheck at hc1 hc2
  cases hgl : Leadership.getLease s name with
  | none => rw [hgl] at hc1; simp at hc1
  | some info =>
      rw [hgl] at hc1 hc2
      dsimp only at hc1 hc2
      by_cases h1c : info.holder = h1 ∧ now < info.expiry
      · by_cases h2c : info.holder = h2 ∧ now < info.expiry
        · exact h1c.1.symm.trans h2c.1
        · rw [if_neg h2c] at hc2; simp at hc2
      · rw [if_neg h1c] at hc1; simp at hc1

/-- C1 witness: both checks at the concrete state agree on the holder. -/
theorem leadership_check_mutual_exclusion_witness :
    Leadership.leadershipCheck [("svc", ⟨"u0", 100⟩)] 50 "svc" "u0" =
      .ok ⟨"svc", "u0", 50⟩ ∧ ("u0" : String) = "u0" :=
  ⟨rfl, leadership_check_mutual_exclusion [("svc", ⟨"u0", 100⟩)] 50 "svc"
      "u0" "u0" ⟨"svc", "u0", 50⟩ ⟨"svc", "u0", 50⟩ rfl rfl⟩

/-- C2: re-claiming with the same holder before expiry always succeeds, and the
resulting expiry `max E (now + d)` is never earlier than the previous expiry
`E` — expiry is monotonically non-decreasing across successive re-claims by
the same holder. -/
theorem reclaim_same_holder_monotonic (s : Leadership.Leases) (now E d : Int)
    (name h : String)
    (hl : Leadership.getLease s name = some ⟨h, E⟩)
    (hbefore : now < E) (hd : 0 < d) :
    Leadership.claimLeadership s now name h d =
      .ok (Leadership.setLease s name ⟨h, max E (now + d)⟩) ∧
    Leadership.getLease (Leadership.setLease s name ⟨h, max E (now + d)⟩) name =
      some ⟨h, max E (now + d)⟩ ∧
    E ≤ max E (now + d) := by
  refine ⟨?_, getLease_setLease_same _ _ _, le_max_left _ _⟩
  have hd' : ¬ d ≤ 0 := not_le.mpr hd
  simp only [Leadership.claimLeadership, Leadership.ExtendLease, hl, hd', if_false]
  simp [hbefore]

/-- C2 witness: the concrete re-claim at `now = 50` of a lease expiring at
`100` with a further `10`-long duration. -/
theorem reclaim_same_holder_monotonic_witness :
    Leadership.claimLeadership [("svc", ⟨"u0", 100⟩)] 50 "svc" "u0" 10 =
      .ok (Leadership.setLease [("svc", ⟨"u0", 100⟩)] "svc" ⟨"u0", max 100 (50 + 10)⟩) ∧
    Leadership.getLease
        (Leadership.setLease [("svc", ⟨"u0", 100⟩)] "svc" ⟨"u0", max 100 (50 + 10)⟩)
        "svc" =
      some ⟨"u0", max 100 (50 + 10)⟩ ∧
    (100 : Int) ≤ max 100 (50 + 10) :=
  reclaim_same_holder_monotonic [("svc", ⟨"u0", 100⟩)] 50 100 10 "svc" "u0"
    (by decide) (by decide) (by decide)

/-- C3: a claim by a different holder strictly before the expiry `E` fails with
`LeaseHeldByOther`; the same claim attempted once the Clock has advanced past
`E` succeeds (via the expiry-then-claim tie-break) and installs the new
holder. -/
theorem claim_other_holder (s : Leadership.Leases) (name a b : String)
    (E now now' d : Int)
    (hl : Leadership.getLease s name = some ⟨a, E⟩)
    (hne : b ≠ a) (hd : 0 < d)
    (hbefore : now < E) (hafter : E < now') :
    Leadership.claimLeadership s now name b d = .error .leaseHeldByOther ∧
    Leadership.claimLeadership s now' name b d =
      .ok (Leadership.setLease (Leadership.delLease s name) name ⟨b, now' + d⟩) := by
  have hd' : ¬ d ≤ 0 := not_le.mpr hd
  constructor
  · simp only [Leadership.claimLeadership, hl, hd', if_false]
    simp [hbefore, Ne.symm hne]
  · have hnow' : ¬ now' < E := not_lt.mpr (le_of_lt hafter)
    simp only [Leadership.claimLeadership, Leadership.ExpireLease,
      Leadership.ClaimLease, hl, hd', if_false]
    simp [hnow', le_of_lt hafter, getLease_delLease_same]

/-- C3 witness: with the lease held by `a` until `100`, holder `b` fails at
`50` and succeeds at `150`. -/
theorem claim_other_holder_witness :
    Leadership.claimLeadership [("svc", ⟨"a", 100⟩)] 50 "svc" "b" 10 =
      .error .leaseHeldByOther ∧
    Leadership.claimLeadership [("svc", ⟨"a", 100⟩)] 150 "svc" "b" 10 =
      .ok (Leadership.setLease (Leadership.delLease [("svc", ⟨"a", 100⟩)] "svc")
            "svc" ⟨"b", 150 + 10⟩) :=
  claim_other_holder [("svc", ⟨"a", 100⟩)] "svc" "a" "b" 100 50 150 10
    (by decide) (by decide) (by decide) (by decide) (by decide)

/-- C4: a waiter registered through `BlockUntilLeadershipReleased` while the
lease is held is not woken at registration; before the expiry instant the
expiry step fails and wakes nobody (no waiter returns earlier than the instant
the lease becomes free); at or after the expiry instant the expiry step frees
the lease and wakes all registered waiters together, removing them from
`PendingWaiters` so each returns exactly once. -/
theorem block_until_released_waiters (m : Leadership.MState) (name : String)
    (wid : Nat) (h : String) (E : Int)
    (hl : Leadership.getLease m.leases name = some ⟨h, E⟩) :
    (Leadership.blockUntilReleased m name wid).2 = [] ∧
    wid ∈ Leadership.waitersFor
        (Leadership.blockUntilReleased m name wid).1.pending name ∧
    (∀ now : Int, now < E →
      Leadership.expireStep (Leadership.blockUntilReleased m name wid).1 now name =
        .error .leaseNotExpired) ∧
    (∀ now : Int, E ≤ now →
      Leadership.expireStep (Leadership.blockUntilReleased m name wid).1 now name =
        .ok (⟨Leadership.delLease m.leases name,
              ((name, wid) :: m.pending).filter (fun q => !(q.1 == name))⟩,
             wid :: Leadership.waitersFor m.pending name) ∧
      Leadership.getLease (Leadership.delLease m.leases name) name = none ∧
      Leadership.waitersFor
        (((name, wid) :: m.pending).filter (fun q => !(q.1 == name))) name = []) := by
  have hblock : Leadership.blockUntilReleased m name wid =
      ({ m with pending := (name, wid) :: m.pending }, []) := by
    simp [Leadership.blockUntilReleased, hl]
  refine ⟨by rw [hblock], ?_, ?_, ?_⟩
  · rw [hblock]
    simp [waitersFor_cons_same]
  · intro now hnow
    rw [hblock]
    simp only [Leadership.expireStep, Leadership.ExpireLease]
    simp [hl, not_le.mpr hnow]
  · intro now hnow
    rw [hblock]
    refine ⟨?_, getLease_delLease_same _ _, waitersFor_filter_erase _ _⟩
    simp only [Leadership.expireStep, Leadership.ExpireLease]
    simp [hl, hnow, waitersFor_cons_same]

/-- C4 witness: waiter `7` on a lease held by `x` until `100` is registered, is
not woken by the failing expiry step at `50`, and is woken by the successful
expiry step at `120`. -/
theorem block_until_released_waiters_witness :
    (Leadership.blockUntilReleased ⟨[("svc", ⟨"x", 100⟩)], []⟩ "svc" 7).2 = [] ∧
    7 ∈ Leadership.waitersFor
        (Leadership.blockUntilReleased ⟨[("svc", ⟨"x", 100⟩)], []⟩ "svc" 7).1.pending
        "svc" ∧
    Leadership.expireStep
        (Leadership.blockUntilReleased ⟨[("svc", ⟨"x", 100⟩)], []⟩ "svc" 7).1 50 "svc" =
      .error .leaseNotExpired ∧
    Leadership.expireStep
        (Leadership.blockUntilReleased ⟨[("svc", ⟨"x", 100⟩)], []⟩ "svc" 7).1 120 "svc" =
      .ok (⟨Leadership.delLease [("svc", ⟨"x", 100⟩)] "svc",
            (("svc", 7) :: ([] : List (String × Nat))).filter (fun q => !(q.1 == "svc"))⟩,
           7 :: Leadership.waitersFor [] "svc") := by
  have H := block_until_released_waiters ⟨[("svc", ⟨"x", 100⟩)], []⟩ "svc" 7 "x" 100
    (by decide)
  exact ⟨H.1, H.2.1, H.2.2.1 50 (by decide), (H.2.2.2 120 (by decide)).1⟩

/-- C5: `Kill()` is idempotent; after `Kill()`, `Wait()` returns `nil` when no
invariant violation was recorded and a descriptive non-nil error when one was;
the terminal result is the same however often the manager is killed. -/
theorem kill_wait_lifecycle (m : Leadership.ManagerLife) :
    Leadership.kill (Leadership.kill m) = Leadership.kill m ∧
    (m.violation = none → Leadership.wait (Leadership.kill m) = none) ∧
    (∀ e, m.violation = some e →
      Leadership.wait (Leadership.kill m) = some ("leadership manager: " ++ e) ∧
      Leadership.wait (Leadership.kill m) ≠ none) ∧
    Leadership.wait (Leadership.kill (Leadership.kill m)) =
      Leadership.wait (Leadership.kill m) := by
  refine ⟨rfl, fun hc => ?_, fun e he => ?_, rfl⟩
  · simp [Leadership.wait, Leadership.kill, hc]
  · simp [Leadership.wait, Leadership.kill, he]

/-- C5 witness: a clean run waits to `none`; a run with a recorded violation
waits to a non-nil error. -/
theorem kill_wait_lifecycle_witness :
    Leadership.wait (Leadership.kill ⟨false, none⟩) = none ∧
    Leadership.wait (Leadership.kill ⟨false, some "expiry moved backward"⟩) ≠ none :=
  ⟨(kill_wait_lifecycle ⟨false, none⟩).2.1 rfl,
   ((kill_wait_lifecycle ⟨false, some "expiry moved backward"⟩).2.2.1
      "expiry moved backward" rfl).2⟩

/-- C6: `NewManager` fails with a non-nil error whenever the Clock or the
Client collaborator is absent, and succeeds, returning the manager built from
the two collaborators, when both are supplied. -/
theorem new_manager_collaborators (ck : Leadership.LClock) (cl : Leadership.LClient) :
    Leadership.NewManager none (some cl) = .error "nil Clock not valid" ∧
    Leadership.NewManager (some ck) none = .error "nil Client not valid" ∧
    Leadership.NewManager none none = .error "nil Clock not valid" ∧
    Leadership.NewManager (some ck) (some cl) = .ok ⟨ck, cl⟩ :=
  ⟨rfl, rfl, rfl, rfl⟩
